import Mathlib

/-
Verification of the instance-orchestration core of lodestone_core
(src/src/lib.rs) against its natural-language specification.

The Rust source is shallowly embedded: the background task loops become
pure Lean functions over explicit event/result lists, the tokio broadcast
channel and interval are modelled by their documented semantics, and the
ringbuffer / HashMap containers become Lean structures over lists.
-/

set_option autoImplicit false

/-! ## Bounded history buffer

Models `ringbuffer::AllocRingBuffer` as used in lib.rs: a fixed-capacity
circular buffer; pushing into a full buffer evicts the oldest element.
`data` is stored oldest-first, so iteration order is chronological. -/

structure AllocRingBuffer (α : Type) where
  capacity : Nat
  data : List α
deriving DecidableEq

/-- Models `AllocRingBuffer::with_capacity(n)`: an empty buffer of capacity `n`. -/
def AllocRingBuffer.with_capacity (α : Type) (n : Nat) : AllocRingBuffer α :=
  ⟨n, []⟩

/-- Models `RingBufferWrite::push`: append, evicting the oldest element when full. -/
def AllocRingBuffer.push {α : Type} (b : AllocRingBuffer α) (x : α) : AllocRingBuffer α :=
  ⟨b.capacity, if b.data.length + 1 > b.capacity then b.data.drop 1 ++ [x] else b.data ++ [x]⟩

/-! ## Events

Modelled from the spec: the `events` module is not under src/.  Per the
spec's data model, an Event is a tagged record whose kind distinguishes
"console output" from all other kinds, and console-output events always
carry an owning Instance Identifier (lib.rs relies on this by calling
`event.get_instance_uuid().unwrap()` in the console branch). -/

inductive Event where
  | consoleOutput (instance_uuid : String) (line : String)
  | otherEvent (kind : String) (instance_uuid : Option String)
deriving DecidableEq

/-- Models `Event::is_event_console_message`. -/
def Event.is_event_console_message : Event → Bool
  | .consoleOutput _ _ => true
  | .otherEvent _ _ => false

/-- Models `Event::get_instance_uuid`. -/
def Event.get_instance_uuid : Event → Option String
  | .consoleOutput u _ => some u
  | .otherEvent _ u => u

/-! ## Broadcast receive results

Models `tokio::sync::broadcast`'s `Receiver::recv` outcomes as matched in
`event_buffer_task` (lib.rs lines 323-336): a received event, a
`RecvError::Lagged(n)` signal, or `RecvError::Closed`. -/

inductive RecvResult where
  | ok (e : Event)
  | lagged (n : Nat)
  | closed
deriving DecidableEq

/-! ## Association-list model of `HashMap`

lib.rs keys per-instance buffers by instance uuid in a `HashMap`.  The
map is modelled as an association list with unique keys; `entry(k)
.or_insert_with(f)` inserts at the end when the key is absent. -/

def alistLookup {β : Type} (m : List (String × β)) (k : String) : Option β :=
  match m with
  | [] => none
  | (k', v) :: rest => if k' = k then some v else alistLookup rest k

/-- Models `HashMap::entry(k).or_insert_with(dflt)` followed by an in-place
update `f` of the entry's value. -/
def alistEntryModify {β : Type} (m : List (String × β)) (k : String) (dflt : β)
    (f : β → β) : List (String × β) :=
  match m with
  | [] => [(k, f dflt)]
  | (k', v) :: rest =>
    if k' = k then (k', f v) :: rest else (k', v) :: alistEntryModify rest k dflt f

/-! ## Event Distribution Task (lib.rs lines 317-361)

The task's mutable state: the global event buffer (a `Stateful`
ring buffer created with capacity 512 at lib.rs line 250; its incremental
and final persistence callbacks are no-ops, lines 249-256) and the
per-instance console-output buffer map (lib.rs lines 258-265). -/

structure BufState where
  events_buffer : AllocRingBuffer Event
  console_out_buffer : List (String × AllocRingBuffer Event)
deriving DecidableEq

/-- The buffers as `run` constructs them: global buffer
`AllocRingBuffer::with_capacity(512)` (lib.rs line 250), console map
`HashMap::new()` (line 259). -/
def initialBufState : BufState :=
  ⟨AllocRingBuffer.with_capacity Event 512, []⟩

/-- Models the body of `event_buffer_task` for one successfully received
event (lib.rs lines 337-358): a console-output event is pushed into the
per-instance console buffer keyed by its owning uuid, created with
`AllocRingBuffer::with_capacity(512)` on first use; every other event is
pushed into the global events buffer. -/
def stepEvent (e : Event) (st : BufState) : BufState :=
  if e.is_event_console_message then
    match e.get_instance_uuid with
    | some u =>
      ⟨st.events_buffer,
       alistEntryModify st.console_out_buffer u (AllocRingBuffer.with_capacity Event 512)
         (fun b => b.push e)⟩
    | none => st -- unreachable: the source unwraps; console events carry an identifier
  else
    ⟨st.events_buffer.push e, st.console_out_buffer⟩

/-- One receive iteration of `event_buffer_task` (lib.rs lines 322-359):
returns the new buffer state, whether the loop terminates (`break`), and
the warnings logged. -/
def eventTaskStep (r : RecvResult) (st : BufState) : BufState × Bool × List String :=
  match r with
  | .lagged _ => (st, false, ["Event buffer lagged"])
  | .closed => (st, true, ["Event buffer closed"])
  | .ok e => (stepEvent e st, false, [])

/-- The `event_buffer_task` loop over a finite prefix of received results:
processes results in order, stopping at the first `closed`. -/
def runEventLoop : List RecvResult → BufState → BufState
  | [], st => st
  | r :: rs, st =>
    let s := eventTaskStep r st
    if s.2.1 then s.1 else runEventLoop rs s.1

/-! ## Users and the first-time setup key (lib.rs lines 225-247, 267-278) -/

/-- Modelled from the spec: `auth::user::User` is not under src/.  Per the
spec's external-interface section, a user record includes at least an
"is owner" flag (`is_owner`, read at lib.rs line 270). -/
structure User where
  username : String
  is_owner : Bool
deriving DecidableEq

/-- Modelled from the spec: `util::rand_alphanumeric` is not under src/.
It produces a random alphanumeric string of the requested length; the
randomness is elided, keeping only the length. -/
def rand_alphanumeric (n : Nat) : String :=
  String.mk (List.replicate n 'A')

/-- Models lib.rs lines 267-278: after restoring the user store, if no
restored user has `is_owner` set, generate `rand_alphanumeric(16)` as the
one-time setup key and log it; otherwise the key is `None`.  Returns the
key together with the log lines emitted. -/
def first_time_setup_key (users : List (String × User)) : Option String × List String :=
  if !(users.any fun p => p.2.is_owner) then
    let key := rand_alphanumeric 16
    (some key, ["First time setup key: " ++ key])
  else
    (none, [])

/-! ## The user store's persistence callbacks (lib.rs lines 225-247)

`Stateful::new` for the user store receives two boxed closures — the
incremental one (invoked by `transform`) and the final one (invoked at
shutdown).  Each closure runs `serde_json::to_writer(File::create(PATH_TO_USERS), users)`:
it recreates (truncates) the users file and writes a serialization of the
whole current map, ignoring whatever the file held before.  The
filesystem effect is modelled as a function from the old file content to
the new one; serialization is modelled by a small JSON value type. -/

inductive Json where
  | str (s : String)
  | bool (b : Bool)
  | obj (fields : List (String × Json))

/-- Serialization of a user record (its modelled fields). -/
def User.toJson (u : User) : Json :=
  .obj [("username", .str u.username), ("is_owner", .bool u.is_owner)]

/-- Serialization of the whole user map, as `serde_json::to_writer` writes it. -/
def users_to_json (users : List (String × User)) : Json :=
  .obj (users.map fun p => (p.1, p.2.toJson))

/-- The user store's incremental persistence closure (lib.rs lines 228-236):
rewrite the entire users file with a serialization of the current value. -/
def users_save_on_mutate (users : List (String × User)) (_file : Option Json) : Option Json :=
  some (users_to_json users)

/-- The user store's final-flush persistence closure (lib.rs lines 238-246):
same body as the incremental one — rewrite the entire users file. -/
def users_save_on_final (users : List (String × User)) (_file : Option Json) : Option Json :=
  some (users_to_json users)

/-! ## Instance handles

Modelled from the spec: the concrete instance implementation
(`implementations::minecraft`, behind the `TInstance` trait) is not under
src/.  A handle is modelled by the observable outcomes of the capability
set that `run` uses: its name, its persisted `auto_start` flag, and the
results of `start()` and `stop()`. -/

instance {ε α : Type} [DecidableEq ε] [DecidableEq α] : DecidableEq (Except ε α)
  | .ok a, .ok b =>
    if h : a = b then .isTrue (by rw [h]) else .isFalse (by intro he; cases he; exact h rfl)
  | .ok _, .error _ => .isFalse (by intro h; cases h)
  | .error _, .ok _ => .isFalse (by intro h; cases h)
  | .error e, .error f =>
    if h : e = f then .isTrue (by rw [h]) else .isFalse (by intro he; cases he; exact h rfl)

structure InstanceM where
  name : String
  auto_start : Bool
  start_result : Except String Unit
  stop_result : Except String Unit
deriving DecidableEq

/-- Models the auto-start loop body for one instance (lib.rs lines 280-292):
if the instance's config marks it auto-start, log, call `start()`, and on
`Err` log the failure and keep going.  Returns whether the instance ends
up running (started successfully) and the log lines emitted. -/
def autoStartOne (i : InstanceM) : Bool × List String :=
  if i.auto_start then
    match i.start_result with
    | .ok _ => (true, ["Auto starting instance " ++ i.name])
    | .error e =>
      (false, ["Auto starting instance " ++ i.name,
               "Failed to start instance " ++ i.name ++ ": " ++ e])
  else
    (false, [])

/-- The whole auto-start pass (lib.rs lines 280-292) over the restored
instances, in iteration order: pairs each instance with whether it is
running afterwards, concatenating the logs. -/
def auto_start_pass : List InstanceM → List (InstanceM × Bool) × List String
  | [] => ([], [])
  | i :: rest =>
    let r := autoStartOne i
    let t := auto_start_pass rest
    ((i, r.1) :: t.1, r.2 ++ t.2)

/-- Models the shutdown loop (lib.rs lines 423-428): after the shutdown
race resolves, every instance still in the registry is stopped in
sequence; the result of `stop()` is discarded with `let _ = ...`, so
nothing is logged and a failure never interrupts the loop.  Returns each
instance paired with its stop outcome, plus the log lines emitted. -/
def shutdown_pass : List InstanceM → List (InstanceM × Except String Unit) × List String
  | [] => ([], [])
  | i :: rest =>
    let t := shutdown_pass rest
    ((i, i.stop_result) :: t.1, [] ++ t.2)

/-! ## Instance restoration (lib.rs lines 77-127)

`restore_instances` reads each instance directory's `.lodestone_config`
as JSON, lowercases its `game_type` field with `to_ascii_lowercase`, and
dispatches: `"minecraft"` rebuilds a Minecraft instance; any other tag
hits `unimplemented!()`, a panic that aborts the process.  The panic is
modelled as `Except.error`. -/

/-- The fields of a persisted `.lodestone_config` that lib.rs itself reads. -/
structure RawConfig where
  uuid : String
  game_type : String
  name : String
  auto_start : Bool
deriving DecidableEq

/-- Models `str::to_ascii_lowercase`: lowercase ASCII letters, leave the rest. -/
def ascii_lowercase (s : String) : String :=
  String.mk (s.data.map fun c =>
    if 'A' ≤ c ∧ c ≤ 'Z' then Char.ofNat (c.toNat + 32) else c)

/-- The restored handle value; `minecraft` is the only variant
(lib.rs lines 106-115). -/
inductive RestoredInstance where
  | minecraft (config : RawConfig)
deriving DecidableEq

/-- Models the dispatch at lib.rs lines 100-117: match on the lowercased
`game_type`; `"minecraft"` restores, anything else panics
(`unimplemented!()`), modelled as `Except.error`. -/
def restore_one (config : RawConfig) : Except String RestoredInstance :=
  if ascii_lowercase config.game_type = "minecraft" then
    .ok (.minecraft config)
  else
    .error "not implemented"

/-- Models `restore_instances` (lib.rs lines 77-127): restore every
configured instance in order, keying the registry by the instance uuid;
the first panic aborts the whole restoration. -/
def restore_instances : List RawConfig → Except String (List (String × RestoredInstance))
  | [] => .ok []
  | c :: rest => do
    let inst ← restore_one c
    let others ← restore_instances rest
    .ok ((c.uuid, inst) :: others)

/-- The part of the startup state that the startup-order claims observe. -/
structure StartupState where
  setup_key : Option String
  instances : List (String × RestoredInstance)
deriving DecidableEq

/-- Models the startup sequence of `run` around restoration (lib.rs lines
225-315): compute the first-time setup key from the restored users, then
restore the instances; only if restoration succeeds is the shared state
assembled and the server started.  A panic during restoration aborts the
process before any request is served. -/
def run_startup (users : List (String × User)) (configs : List RawConfig) :
    Except String StartupState := do
  let key := first_time_setup_key users
  let insts ← restore_instances configs
  pure ⟨key.1, insts⟩

/-! ## Monitor loop timing (lib.rs lines 363-381)

The loop creates `tokio::time::interval(Duration::from_secs(1))`, then
repeats: take a monitoring snapshot of every registered instance, then
`interval.tick().await`.  Per tokio's documented semantics the first
`tick()` completes immediately and the k-th `tick()` completes (k-1)
periods after the interval was created.  Time is modelled in
milliseconds with snapshot collection itself instantaneous. -/

def monitor_tick_period_ms : Nat := 1000

/-- Capacity of each per-instance monitoring buffer,
`AllocRingBuffer::with_capacity(64)` (lib.rs line 375). -/
def monitor_buffer_capacity : Nat := 64

/-- Completion time of the k-th `interval.tick().await` (k ≥ 1): the
first tick completes immediately, later ones one period apart. -/
def tick_completion_ms (k : Nat) : Nat :=
  (k - 1) * monitor_tick_period_ms

/-- Start time of loop iteration i (0-indexed), which is when that
iteration's snapshot is taken: iteration 0 starts at time 0, and
iteration i (i ≥ 1) starts when the i-th tick completes, since the
snapshot precedes the tick await inside the loop body. -/
def snapshot_time_ms (i : Nat) : Nat :=
  if i = 0 then 0 else tick_completion_ms i

/-- Number of snapshots taken within the first t milliseconds: iterations
0 and 1 both run at time 0 (the first tick is immediate), and one more
iteration starts at each following period boundary. -/
def snapshots_within (t : Nat) : Nat :=
  t / monitor_tick_period_ms + 2

/-- Length of the single registered instance's monitoring buffer after
t milliseconds: snapshots taken so far, capped by the buffer capacity. -/
def monitor_buffer_len (t : Nat) : Nat :=
  min (snapshots_within t) monitor_buffer_capacity

/-! ## Lock-scope trace of the monitor loop (lib.rs lines 363-381)

To settle the lock-discipline claim, one per-tick iteration of
`monitor_report_task` is traced as the sequence of its awaits (suspension
points) together with the component locks held at each.  Rust drops a
temporary `MutexGuard` at the end of the enclosing statement, except in a
`for` loop, where the guard created in the iterator expression
`instances.lock().await.iter()` lives for the entire loop.  Hence:
the registry guard is held from the start of the `for` until after its
last iteration, each `instance.lock()` guard only for the statement
`let report = instance.lock().await.monitor().await;`, and the
`monitor_buffer.lock()` guard only for the entry/push statement. -/

inductive CompLock where
  | registry
  | instanceHandle (uuid : String)
  | monitorMap
deriving DecidableEq

inductive AwaitKind where
  | lockRegistry
  | lockInstance (uuid : String)
  | monitorCall (uuid : String)
  | lockMonitorMap (uuid : String)
  | tickWait
deriving DecidableEq

/-- One suspension point of the monitor loop: the await performed and the
component locks already held while awaiting it. -/
structure AwaitStep where
  kind : AwaitKind
  held : List CompLock
deriving DecidableEq

/-- The suspension points of one handled instance inside the `for` body
(lib.rs lines 369-377), all under the registry guard. -/
def monitorBodyAwaits (u : String) : List AwaitStep :=
  [⟨.lockInstance u, [.registry]⟩,
   ⟨.monitorCall u, [.registry, .instanceHandle u]⟩,
   ⟨.lockMonitorMap u, [.registry]⟩]

/-- The suspension points of one full iteration of `monitor_report_task`
over registered instances `us`: acquire the registry lock, handle each
instance under it, then await the tick with no lock held. -/
def monitorIterAwaits (us : List String) : List AwaitStep :=
  ⟨.lockRegistry, []⟩ :: (us.flatMap monitorBodyAwaits ++ [⟨.tickWait, []⟩])

/-- Whether an await is a suspension point inside an instance handle's own
asynchronous operation (`monitor()`). -/
def AwaitStep.insideInstanceOp (s : AwaitStep) : Bool :=
  match s.kind with
  | .monitorCall _ => true
  | _ => false

/-! ## Event Bus (lib.rs line 223)

`run` creates the bus with `broadcast::channel(256)`.  Modelled from
tokio's documented broadcast semantics: each subscriber has its own
pending queue bounded by the channel capacity; publishing to a subscriber
whose queue is full drops that subscriber's oldest undelivered value
(the lag-drop policy).  The capacity is fixed at creation and shared by
every subscriber. -/

structure BroadcastBus (α : Type) where
  capacity : Nat
  queues : List (List α)
deriving DecidableEq

/-- Models `broadcast::channel(cap)`: a bus with the given capacity and no
subscribers yet. -/
def broadcast_channel (α : Type) (cap : Nat) : BroadcastBus α :=
  ⟨cap, []⟩

/-- The Event Bus exactly as `run` creates it: `broadcast::channel(256)`
(lib.rs line 223). -/
def eventBus : BroadcastBus Event :=
  broadcast_channel Event 256

inductive BusOp (α : Type) where
  | publish (x : α)
  | subscribe
deriving DecidableEq

/-- Delivery of one published value into one subscriber's pending queue:
when the queue already holds `cap` undelivered values, the oldest is
dropped (the subscriber will observe a lagged signal). -/
def deliverToQueue {α : Type} (cap : Nat) (q : List α) (x : α) : List α :=
  if q.length + 1 > cap then q.drop 1 ++ [x] else q ++ [x]

/-- One bus operation: publishing delivers to every subscriber's queue;
subscribing adds a fresh empty queue. -/
def busStep {α : Type} (b : BroadcastBus α) : BusOp α → BroadcastBus α
  | .publish x => ⟨b.capacity, b.queues.map fun q => deliverToQueue b.capacity q x⟩
  | .subscribe => ⟨b.capacity, b.queues ++ [[]]⟩

/-- A sequence of bus operations. -/
def busRun {α : Type} (b : BroadcastBus α) : List (BusOp α) → BroadcastBus α
  | [] => b
  | op :: ops => busRun (busStep b op) ops

/-- The per-subscriber bound maintained by the bus: no pending queue ever
holds more than `capacity` undelivered events. -/
def BusInv {α : Type} (b : BroadcastBus α) : Prop :=
  ∀ q ∈ b.queues, q.length ≤ b.capacity

/-- The routing invariant maintained by the Event Distribution Task: the
global buffer keeps capacity 512 and holds no console-output events, and
every console buffer has capacity 512 and holds only console-output
events owned by its key. -/
def BufInv (st : BufState) : Prop :=
  st.events_buffer.capacity = 512 ∧
  (∀ e ∈ st.events_buffer.data, e.is_event_console_message = false) ∧
  (∀ u b, alistLookup st.console_out_buffer u = some b →
    b.capacity = 512 ∧
    ∀ e ∈ b.data, e.is_event_console_message = true ∧ e.get_instance_uuid = some u)

/-! ## Helper lemmas -/

theorem alistLookup_entryModify_self {β : Type} (m : List (String × β)) (k : String)
    (d : β) (f : β → β) :
    alistLookup (alistEntryModify m k d f) k = some (f ((alistLookup m k).getD d)) := by
  induction m with
  | nil => simp [alistLookup, alistEntryModify]
  | cons p rest ih =>
    obtain ⟨k', v⟩ := p
    by_cases h : k' = k
    · simp [alistLookup, alistEntryModify, h]
    · simp [alistLookup, alistEntryModify, h, ih]

theorem alistLookup_entryModify_ne {β : Type} (m : List (String × β)) (k v : String)
    (d : β) (f : β → β) (hvk : v ≠ k) :
    alistLookup (alistEntryModify m k d f) v = alistLookup m v := by
  have hkv : ¬k = v := fun h => hvk h.symm
  induction m with
  | nil => simp [alistLookup, alistEntryModify, hkv]
  | cons p rest ih =>
    obtain ⟨k', w⟩ := p
    by_cases h : k' = k
    · subst h
      simp [alistLookup, alistEntryModify, hkv]
    · simp [alistLookup, alistEntryModify, h, ih]

theorem push_capacity {α : Type} (b : AllocRingBuffer α) (x : α) :
    (b.push x).capacity = b.capacity := rfl

theorem mem_push {α : Type} {b : AllocRingBuffer α} {x e : α}
    (h : e ∈ (b.push x).data) : e ∈ b.data ∨ e = x := by
  unfold AllocRingBuffer.push at h
  dsimp at h
  split at h <;> rcases List.mem_append.mp h with h' | h'
  · exact Or.inl (List.drop_subset 1 b.data h')
  · exact Or.inr (List.mem_singleton.mp h')
  · exact Or.inl h'
  · exact Or.inr (List.mem_singleton.mp h')

theorem runEventLoop_ok (e : Event) (rs : List RecvResult) (st : BufState) :
    runEventLoop (.ok e :: rs) st = runEventLoop rs (stepEvent e st) := rfl

theorem runEventLoop_lagged (n : Nat) (rs : List RecvResult) (st : BufState) :
    runEventLoop (.lagged n :: rs) st = runEventLoop rs st := rfl

theorem runEventLoop_closed (rs : List RecvResult) (st : BufState) :
    runEventLoop (.closed :: rs) st = st := rfl

theorem bufInv_step (e : Event) (st : BufState) (h : BufInv st) : BufInv (stepEvent e st) := by
  obtain ⟨hcap, hglob, hcons⟩ := h
  cases e with
  | consoleOutput u line =>
    refine ⟨hcap, hglob, ?_⟩
    intro u' b' hb'
    by_cases hu : u' = u
    · subst hu
      rw [show (stepEvent (.consoleOutput u' line) st).console_out_buffer =
            alistEntryModify st.console_out_buffer u'
              (AllocRingBuffer.with_capacity Event 512) (fun b => b.push (.consoleOutput u' line))
            from rfl,
          alistLookup_entryModify_self] at hb'
      obtain rfl := Option.some.inj hb'
      constructor
      · rw [push_capacity]
        cases hl : alistLookup st.console_out_buffer u' with
        | none => simp [hl, AllocRingBuffer.with_capacity]
        | some b0 => simp [hl, (hcons u' b0 hl).1]
      · intro e he
        rcases mem_push he with hold | rfl
        · cases hl : alistLookup st.console_out_buffer u' with
          | none => simp [hl, AllocRingBuffer.with_capacity] at hold
          | some b0 =>
            rw [hl] at hold
            exact (hcons u' b0 hl).2 e hold
        · exact ⟨rfl, rfl⟩
    · rw [show (stepEvent (.consoleOutput u line) st).console_out_buffer =
            alistEntryModify st.console_out_buffer u
              (AllocRingBuffer.with_capacity Event 512) (fun b => b.push (.consoleOutput u line))
            from rfl,
          alistLookup_entryModify_ne _ _ _ _ _ hu] at hb'
      exact hcons u' b' hb'
  | otherEvent kind mu =>
    refine ⟨hcap, ?_, hcons⟩
    intro e he
    rcases mem_push he with hold | rfl
    · exact hglob e hold
    · rfl

theorem bufInv_run (rs : List RecvResult) (st : BufState) (h : BufInv st) :
    BufInv (runEventLoop rs st) := by
  induction rs generalizing st with
  | nil => exact h
  | cons r rest ih =>
    cases r with
    | ok e => rw [runEventLoop_ok]; exact ih _ (bufInv_step e st h)
    | lagged n => rw [runEventLoop_lagged]; exact ih _ h
    | closed => rw [runEventLoop_closed]; exact h

theorem bufInv_initial : BufInv initialBufState := by
  refine ⟨rfl, ?_, ?_⟩
  · intro e he
    simp [initialBufState, AllocRingBuffer.with_capacity] at he
  · intro u b hb
    simp [initialBufState, alistLookup] at hb

/-! ## Claim theorems -/

/-- C1: For every event received by the Event Distribution Task (other
than lagged/closed signals): a console-output event is appended to the
per-instance console History Buffer keyed by its owning Instance
Identifier — that buffer being created with capacity 512 on first use —
and never to the global buffer; every other event is appended to the
single global event History Buffer (capacity 512) and never to any
console buffer.  Stated per step (the global buffer is untouched by a
console event, the console map untouched by any other event) and as a
whole-run invariant from the state `run` constructs. -/
theorem c1_event_routing :
    (∀ (u line : String) (st : BufState),
      (stepEvent (.consoleOutput u line) st).events_buffer = st.events_buffer ∧
      alistLookup (stepEvent (.consoleOutput u line) st).console_out_buffer u =
        some (((alistLookup st.console_out_buffer u).getD
          (AllocRingBuffer.with_capacity Event 512)).push (.consoleOutput u line)) ∧
      (∀ v, v ≠ u →
        alistLookup (stepEvent (.consoleOutput u line) st).console_out_buffer v =
          alistLookup st.console_out_buffer v)) ∧
    (∀ (kind : String) (mu : Option String) (st : BufState),
      (stepEvent (.otherEvent kind mu) st).console_out_buffer = st.console_out_buffer ∧
      (stepEvent (.otherEvent kind mu) st).events_buffer =
        st.events_buffer.push (.otherEvent kind mu)) ∧
    (∀ rs : List RecvResult,
      (runEventLoop rs initialBufState).events_buffer.capacity = 512 ∧
      (∀ e ∈ (runEventLoop rs initialBufState).events_buffer.data,
        e.is_event_console_message = false) ∧
      (∀ u b, alistLookup (runEventLoop rs initialBufState).console_out_buffer u = some b →
        b.capacity = 512 ∧
        ∀ e ∈ b.data, e.is_event_console_message = true ∧ e.get_instance_uuid = some u)) := by
  refine ⟨?_, ?_, ?_⟩
  · intro u line st
    refine ⟨rfl, ?_, ?_⟩
    · exact alistLookup_entryModify_self st.console_out_buffer u _ _
    · intro v hv
      exact alistLookup_entryModify_ne st.console_out_buffer u v _ _ hv
  · intro kind mu st
    exact ⟨rfl, rfl⟩
  · intro rs
    exact bufInv_run rs initialBufState bufInv_initial

/-- C1 witness: the routing at concrete inputs, each hypothesis of
`c1_event_routing` discharged at a concrete value. -/
theorem c1_event_routing_witness :
    alistLookup (stepEvent (.consoleOutput "i1" "hi") initialBufState).console_out_buffer "i2" =
      alistLookup initialBufState.console_out_buffer "i2" ∧
    (Event.otherEvent "start" none).is_event_console_message = false ∧
    (AllocRingBuffer.mk 512 [Event.consoleOutput "i1" "hi"]).capacity = 512 :=
  ⟨(c1_event_routing.1 "i1" "hi" initialBufState).2.2 "i2" (by decide),
   (c1_event_routing.2.2 [.ok (.otherEvent "start" none)]).2.1
     (.otherEvent "start" none) (by decide),
   ((c1_event_routing.2.2 [.ok (.consoleOutput "i1" "hi")]).2.2 "i1"
     (AllocRingBuffer.mk 512 [Event.consoleOutput "i1" "hi"]) (by decide)).1⟩

/-- C2: the Event Distribution Task, on a "lagged" signal, logs a warning
and continues (the loop proceeds to the next receive); on "closed" it
terminates, abandoning the rest; and no other received result makes the
step report termination. -/
theorem c2_lagged_closed :
    ∀ (st : BufState) (n : Nat) (e : Event) (rs : List RecvResult),
      eventTaskStep (.lagged n) st = (st, false, ["Event buffer lagged"]) ∧
      eventTaskStep .closed st = (st, true, ["Event buffer closed"]) ∧
      (∀ r : RecvResult, (eventTaskStep r st).2.1 = true ↔ r = .closed) ∧
      runEventLoop (.lagged n :: rs) st = runEventLoop rs st ∧
      runEventLoop (.closed :: rs) st = st ∧
      runEventLoop (.ok e :: rs) st = runEventLoop rs (stepEvent e st) := by
  intro st n e rs
  refine ⟨rfl, rfl, ?_, rfl, rfl, rfl⟩
  intro r
  cases r <;> simp [eventTaskStep]

/-- C2 witness: `c2_lagged_closed` at concrete inputs; only `closed`
terminates the step. -/
theorem c2_lagged_closed_witness :
    (eventTaskStep .closed initialBufState).2.1 = true ∧
    (eventTaskStep (.lagged 3) initialBufState).2.1 = false :=
  ⟨((c2_lagged_closed initialBufState 3 (.otherEvent "k" none) []).2.2.1 .closed).mpr rfl,
   by
    have h := (c2_lagged_closed initialBufState 3 (.otherEvent "k" none) []).1
    rw [h]⟩

/-- C3: at startup, after restoring the user store, if no restored user
has the owner flag set then a non-empty one-time setup key
(`rand_alphanumeric 16`) is generated and logged; if some user has
`owner = true`, no key is generated. -/
theorem c3_setup_key (users : List (String × User)) :
    ((users.any fun p => p.2.is_owner) = false →
      first_time_setup_key users =
        (some (rand_alphanumeric 16), ["First time setup key: " ++ rand_alphanumeric 16]) ∧
      rand_alphanumeric 16 ≠ "") ∧
    ((users.any fun p => p.2.is_owner) = true →
      first_time_setup_key users = (none, [])) := by
  constructor
  · intro h
    exact ⟨by simp [first_time_setup_key, h], by decide⟩
  · intro h
    simp [first_time_setup_key, h]

/-- C3 witness: `c3_setup_key` at an empty store (key generated and
logged) and at a store with an owner (no key). -/
theorem c3_setup_key_witness :
    (first_time_setup_key [] =
        (some (rand_alphanumeric 16), ["First time setup key: " ++ rand_alphanumeric 16]) ∧
      rand_alphanumeric 16 ≠ "") ∧
    first_time_setup_key [("alice", ⟨"alice", true⟩)] = (none, []) :=
  ⟨(c3_setup_key []).1 rfl, (c3_setup_key [("alice", ⟨"alice", true⟩)]).2 rfl⟩

/-- C8: for the user store's Crash-Consistent State Container, the
incremental (checkpoint) persistence closure and the final-flush closure
are the same operation — each rewrites the entire users file with a
serialization of the current value, regardless of the previous file
contents. -/
theorem c8_user_persistence_eq :
    ∀ (users : List (String × User)) (f g : Option Json),
      users_save_on_mutate users f = users_save_on_final users g ∧
      users_save_on_mutate users f = some (users_to_json users) :=
  fun _ _ _ => ⟨rfl, rfl⟩

/-! ## More helper lemmas (restoration and bus invariants) -/

theorem restore_one_error (c : RawConfig) (hg : ascii_lowercase c.game_type ≠ "minecraft") :
    restore_one c = .error "not implemented" := by
  unfold restore_one
  simp [hg]

theorem restore_instances_error_of_mem (configs : List RawConfig) (c : RawConfig)
    (hc : c ∈ configs) (hg : ascii_lowercase c.game_type ≠ "minecraft") :
    restore_instances configs = .error "not implemented" := by
  induction configs with
  | nil => cases hc
  | cons d rest ih =>
    rcases List.mem_cons.mp hc with rfl | hmem
    · show (do
        let inst ← restore_one c
        let others ← restore_instances rest
        (.ok ((c.uuid, inst) :: others) : Except String _)) = .error "not implemented"
      rw [restore_one_error c hg]
      rfl
    · cases hro : restore_one d with
      | error msg =>
        have hmsg : msg = "not implemented" := by
          unfold restore_one at hro
          split at hro
          · cases hro
          · exact (Except.error.inj hro).symm
        subst hmsg
        show (do
          let inst ← restore_one d
          let others ← restore_instances rest
          (.ok ((d.uuid, inst) :: others) : Except String _)) = .error "not implemented"
        rw [hro]
        rfl
      | ok v =>
        show (do
          let inst ← restore_one d
          let others ← restore_instances rest
          (.ok ((d.uuid, inst) :: others) : Except String _)) = .error "not implemented"
        rw [hro, ih hmem]
        rfl

theorem busStep_capacity {α : Type} (b : BroadcastBus α) (op : BusOp α) :
    (busStep b op).capacity = b.capacity := by
  cases op <;> rfl

theorem busRun_capacity {α : Type} (ops : List (BusOp α)) (b : BroadcastBus α) :
    (busRun b ops).capacity = b.capacity := by
  induction ops generalizing b with
  | nil => rfl
  | cons op rest ih =>
    show (busRun (busStep b op) rest).capacity = b.capacity
    rw [ih, busStep_capacity]

theorem deliverToQueue_length_le {α : Type} (cap : Nat) (q : List α) (x : α)
    (hcap : 1 ≤ cap) (hq : q.length ≤ cap) :
    (deliverToQueue cap q x).length ≤ cap := by
  unfold deliverToQueue
  split
  · rename_i h
    simp only [List.length_append, List.length_drop, List.length_singleton]
    omega
  · rename_i h
    simp only [List.length_append, List.length_singleton]
    omega

theorem busInv_step {α : Type} (b : BroadcastBus α) (op : BusOp α)
    (hcap : 1 ≤ b.capacity) (h : BusInv b) : BusInv (busStep b op) := by
  cases op with
  | publish x =>
    intro q hq
    rw [busStep_capacity]
    simp only [busStep, List.mem_map] at hq
    obtain ⟨q0, hq0, rfl⟩ := hq
    exact deliverToQueue_length_le b.capacity q0 x hcap (h q0 hq0)
  | subscribe =>
    intro q hq
    rw [busStep_capacity]
    simp only [busStep, List.mem_append, List.mem_singleton] at hq
    rcases hq with hq | rfl
    · exact h q hq
    · simp

theorem busInv_run {α : Type} (ops : List (BusOp α)) (b : BroadcastBus α)
    (hcap : 1 ≤ b.capacity) (h : BusInv b) : BusInv (busRun b ops) := by
  induction ops generalizing b with
  | nil => exact h
  | cons op rest ih =>
    exact ih (busStep b op) (by rw [busStep_capacity]; exact hcap) (busInv_step b op hcap h)

/-- C4 counterexample: with the loop as written — snapshot first, then
`interval.tick().await`, and the first tick completing immediately —
snapshots are taken at 0, 0, 1000, 2000 and 3000 ms, so after 3.5 seconds
the single instance's Monitoring History Buffer holds 5 snapshots, not
between 3 and 4 as claimed. -/
theorem c4_monitor_count_counterexample :
    snapshot_time_ms 0 ≤ 3500 ∧ snapshot_time_ms 1 ≤ 3500 ∧ snapshot_time_ms 2 ≤ 3500 ∧
    snapshot_time_ms 3 ≤ 3500 ∧ snapshot_time_ms 4 ≤ 3500 ∧ ¬snapshot_time_ms 5 ≤ 3500 ∧
    monitor_buffer_len 3500 = 5 ∧
    ¬(3 ≤ monitor_buffer_len 3500 ∧ monitor_buffer_len 3500 ≤ 4) := by
  decide

/-- C4 (amended): the Monitor Loop runs on a fixed 1-second tick
interval; with one registered instance and instantaneous snapshot
collection, the snapshots taken within the first t milliseconds are
exactly those of index < t/1000 + 2 (the first tick completes
immediately and each iteration snapshots before awaiting the tick), so
after 3.5 seconds the instance's Monitoring History Buffer contains 5
snapshots. -/
theorem c4_monitor_count :
    monitor_tick_period_ms = 1000 ∧
    (∀ t i, snapshot_time_ms i ≤ t ↔ i < snapshots_within t) ∧
    snapshots_within 3500 = 5 ∧
    monitor_buffer_len 3500 = 5 := by
  refine ⟨rfl, ?_, by decide, by decide⟩
  intro t i
  simp only [snapshot_time_ms, tick_completion_ms, snapshots_within, monitor_tick_period_ms]
  split <;> omega

/-- C4 witness: `c4_monitor_count` instantiated at t = 3500 ms, i = 4. -/
theorem c4_monitor_count_witness : snapshot_time_ms 4 ≤ 3500 :=
  (c4_monitor_count.2.1 3500 4).mpr (by decide)

/-- C5 counterexample: an instance whose `stop()` fails produces no log
line at all during shutdown — the result is discarded with `let _ = ...`
(lib.rs line 427) — refuting the claim that a failure to stop is logged. -/
theorem c5_shutdown_unlogged_counterexample :
    (InstanceM.mk "bad" false (.ok ()) (.error "boom")).stop_result = .error "boom" ∧
    shutdown_pass [InstanceM.mk "bad" false (.ok ()) (.error "boom")] =
      ([(InstanceM.mk "bad" false (.ok ()) (.error "boom"), .error "boom")], []) := by
  decide

/-- C5 (amended): during shutdown, every instance still present in the
registry is stopped sequentially, and a failure to stop one instance is
silently discarded — not logged — and does not prevent stopping the
remaining instances: each instance's stop outcome depends only on itself,
and the shutdown loop emits no log lines. -/
theorem c5_shutdown_stops_all (insts : List InstanceM) :
    (shutdown_pass insts).1 = insts.map (fun i => (i, i.stop_result)) ∧
    (shutdown_pass insts).2 = [] := by
  induction insts with
  | nil => exact ⟨rfl, rfl⟩
  | cons i rest ih => simp [shutdown_pass, ih.1, ih.2]

/-- C6: immediately after restoration, every instance whose persisted
configuration has `auto_start = true` has `start()` invoked (and is
running exactly when that call succeeded), instances with
`auto_start = false` are not started, and a failure to start one instance
is logged and does not abort the remaining instances — each instance's
outcome depends only on itself. -/
theorem c6_auto_start (insts : List InstanceM) :
    (auto_start_pass insts).1 =
      insts.map (fun i => (i, i.auto_start && i.start_result.isOk)) ∧
    ∀ i ∈ insts, i.auto_start = true → ∀ e, i.start_result = .error e →
      ("Failed to start instance " ++ i.name ++ ": " ++ e) ∈ (auto_start_pass insts).2 := by
  induction insts with
  | nil => exact ⟨rfl, by intro i h; cases h⟩
  | cons i rest ih =>
    constructor
    · show ((i, (autoStartOne i).1) :: (auto_start_pass rest).1) = _
      rw [List.map_cons, ih.1]
      have : (autoStartOne i).1 = (i.auto_start && i.start_result.isOk) := by
        unfold autoStartOne
        cases hau : i.auto_start <;> cases hsr : i.start_result <;>
          simp [hau, hsr, Except.isOk, Except.toBool]
      rw [this]
    · intro j hj hja e hje
      show _ ∈ (autoStartOne i).2 ++ (auto_start_pass rest).2
      rcases List.mem_cons.mp hj with rfl | hmem
      · refine List.mem_append_left _ ?_
        unfold autoStartOne
        simp [hja, hje]
      · exact List.mem_append_right _ (ih.2 j hmem hja e hje)

/-- C6 witness: `c6_auto_start` at a one-element registry whose instance
is marked auto-start but fails to start; the failure is logged. -/
theorem c6_auto_start_witness :
    ("Failed to start instance a: nope") ∈
      (auto_start_pass [InstanceM.mk "a" true (.error "nope") (.ok ())]).2 :=
  (c6_auto_start [InstanceM.mk "a" true (.error "nope") (.ok ())]).2
    (InstanceM.mk "a" true (.error "nope") (.ok ())) (by decide) rfl "nope" rfl

/-- C7: a persisted configuration whose `game_type` (compared
case-insensitively, via `to_ascii_lowercase`) is not a supported game
type hits `unimplemented!()` during restoration: the whole restoration —
and with it the startup sequence, which restores before assembling the
server state — aborts, rather than skipping that instance. -/
theorem c7_unknown_game_type (configs : List RawConfig) (c : RawConfig)
    (hc : c ∈ configs) (hg : ascii_lowercase c.game_type ≠ "minecraft") :
    restore_instances configs = .error "not implemented" ∧
    ∀ users : List (String × User),
      run_startup users configs = .error "not implemented" := by
  have herr := restore_instances_error_of_mem configs c hc hg
  refine ⟨herr, fun users => ?_⟩
  show (do
    let key := first_time_setup_key users
    let insts ← restore_instances configs
    pure ⟨key.1, insts⟩ : Except String StartupState) = .error "not implemented"
  rw [herr]
  rfl

/-- C7 witness: `c7_unknown_game_type` at a single persisted config with
game type "Terraria". -/
theorem c7_unknown_game_type_witness :
    restore_instances [RawConfig.mk "u1" "Terraria" "t" false] = .error "not implemented" ∧
    run_startup [] [RawConfig.mk "u1" "Terraria" "t" false] = .error "not implemented" :=
  ⟨(c7_unknown_game_type [RawConfig.mk "u1" "Terraria" "t" false]
      (RawConfig.mk "u1" "Terraria" "t" false) (by decide) (by decide)).1,
   (c7_unknown_game_type [RawConfig.mk "u1" "Terraria" "t" false]
      (RawConfig.mk "u1" "Terraria" "t" false) (by decide) (by decide)).2 []⟩

/-- C9 counterexample: the claim that no task holds the Instance Registry
lock across a suspension point inside another component's operation is
false: in `monitor_report_task`, the registry guard produced by
`instances.lock().await` in the `for` head lives for the entire loop, so
it is held while `instance.lock().await.monitor().await` suspends. -/
theorem c9_lock_discipline_counterexample :
    ¬(∀ s ∈ monitorIterAwaits ["i1"], s.insideInstanceOp = true →
        CompLock.registry ∉ s.held) := by
  decide

/-- C9 (amended): in every per-tick iteration of the Monitor Loop, the
Instance Registry lock IS held across the awaited `monitor()` call of
every registered instance (the registry guard lives for the whole `for`
loop); the monitor-buffer lock is not held across those suspensions, and
the tick await holds no component lock. -/
theorem c9_registry_lock_held (us : List String) :
    (∀ u ∈ us,
      (⟨.monitorCall u, [.registry, .instanceHandle u]⟩ : AwaitStep) ∈ monitorIterAwaits us) ∧
    (∀ s ∈ monitorIterAwaits us, s.insideInstanceOp = true →
      CompLock.registry ∈ s.held ∧ CompLock.monitorMap ∉ s.held) ∧
    (∀ s ∈ monitorIterAwaits us, s.kind = .tickWait → s.held = []) := by
  refine ⟨?_, ?_, ?_⟩
  · intro u hu
    apply List.mem_cons_of_mem
    apply List.mem_append_left
    exact List.mem_flatMap.mpr ⟨u, hu, by simp [monitorBodyAwaits]⟩
  · intro s hs h
    rcases List.mem_cons.mp hs with rfl | hs'
    · cases h
    rcases List.mem_append.mp hs' with hbody | htick
    · obtain ⟨u, _, hmem⟩ := List.mem_flatMap.mp hbody
      simp only [monitorBodyAwaits, List.mem_cons, List.mem_singleton,
        List.not_mem_nil, or_false] at hmem
      rcases hmem with rfl | rfl | rfl
      · cases h
      · exact ⟨by simp, by simp⟩
      · cases h
    · rw [List.mem_singleton.mp htick] at h
      cases h
  · intro s hs hk
    rcases List.mem_cons.mp hs with rfl | hs'
    · cases hk
    rcases List.mem_append.mp hs' with hbody | htick
    · obtain ⟨u, _, hmem⟩ := List.mem_flatMap.mp hbody
      simp only [monitorBodyAwaits, List.mem_cons, List.mem_singleton,
        List.not_mem_nil, or_false] at hmem
      rcases hmem with rfl | rfl | rfl <;> cases hk
    · rw [List.mem_singleton.mp htick]

/-- C9 witness: `c9_registry_lock_held` at a one-instance registry — the
monitor await of instance "i1" occurs with the registry lock held. -/
theorem c9_registry_lock_held_witness :
    (⟨.monitorCall "i1", [.registry, .instanceHandle "i1"]⟩ : AwaitStep) ∈
      monitorIterAwaits ["i1"] ∧
    CompLock.registry ∈
      (⟨.monitorCall "i1", [.registry, .instanceHandle "i1"]⟩ : AwaitStep).held :=
  ⟨(c9_registry_lock_held ["i1"]).1 "i1" (by decide),
   ((c9_registry_lock_held ["i1"]).2.1
      ⟨.monitorCall "i1", [.registry, .instanceHandle "i1"]⟩ (by decide) rfl).1⟩

/-- C10: the Event Bus broadcast channel is created with a fixed capacity
of 256 (`broadcast::channel(256)`, lib.rs line 223); the capacity never
changes across bus operations and bounds every subscriber's private
pending queue — at most 256 undelivered events before the lag-drop policy
takes effect, the same bound for all subscribers. -/
theorem c10_bus_capacity (ops : List (BusOp Event)) :
    eventBus.capacity = 256 ∧
    (busRun eventBus ops).capacity = 256 ∧
    ∀ q ∈ (busRun eventBus ops).queues, q.length ≤ 256 := by
  refine ⟨rfl, busRun_capacity ops eventBus, ?_⟩
  intro q hq
  have h := busInv_run ops eventBus (by decide)
    (by intro q0 hq0; simp [eventBus, broadcast_channel] at hq0) q hq
  rw [busRun_capacity] at h
  exact h

/-- C10 witness: `c10_bus_capacity` after one subscription and one
publication — the subscriber's queue holds one event, within bound. -/
theorem c10_bus_capacity_witness :
    [Event.otherEvent "k" none].length ≤ 256 :=
  (c10_bus_capacity [.subscribe, .publish (.otherEvent "k" none)]).2.2
    [Event.otherEvent "k" none] (by decide)
